import Mathlib

/-!
Verification development for the E91 QKD simulator (qiskit_api.py).

The source is a FastAPI application with three endpoints:
  run_chsh       (POST /api/phase1/chsh)
  run_keygen     (POST /api/phase2/keygen)
  run_eve_attack (POST /api/phase3/attack)

Shallow embedding conventions:
- Python floats are modelled as rationals; Python round(x, 4) is modelled as
  exact decimal rounding half-to-even at 4 decimal places (pyRound4).
- Quantum circuits are modelled as lists of gates.  The source only ever calls
  qc.ry with argument -2 * np.radians(theta) for a basis angle theta in
  degrees; the Gate.ry constructor records theta itself (a rational), and the
  real-valued rotation argument -2 * theta * pi / 180 is recovered by ryArg in
  the state-vector semantics.
- The AerSimulator and numpy random source are modelled as oracles carried in
  an environment record: bern models successive np.random.random() draws,
  eveAngleIdx / basisA / basisB model successive np.random.choice index draws,
  sample1 models the outcome of successive single-shot simulator runs as a
  pair (bitA, bitB) with bitA the bit of qubit 0 (Qiskit bitstrings are
  written "q1 q0", so bitA is res[1] in the source), and counts models the
  counts returned by successive shots-runs of the simulator, indexed by the
  angle-pair position.
- Each endpoint returns, besides its result, a trace of the (circuit, shots)
  submissions it made to the simulator, in order, together with cursors
  counting how many draws of each random stream were consumed.
- Python exceptions are modelled with Except; a ZeroDivisionError aborts the
  surrounding loop exactly where the division occurs in the source.
-/

namespace E91

/-- Round half to even for rationals (the tie-breaking rule of Python round),
returning an integer. -/
def roundHalfEven (x : ℚ) : ℤ :=
  if x - ⌊x⌋ < 1/2 then ⌊x⌋
  else if 1/2 < x - ⌊x⌋ then ⌊x⌋ + 1
  else if ⌊x⌋ % 2 = 0 then ⌊x⌋ else ⌊x⌋ + 1

/-- Python round(x, 4), modelled as exact decimal rounding of a rational. -/
def pyRound4 (x : ℚ) : ℚ := (roundHalfEven (x * 10000) : ℚ) / 10000

/-- Outcome counts of a two-qubit measurement, one field per Qiskit bitstring
key; cab is the count of key "ab" with a the bit of qubit 1 and b the bit of
qubit 0 (counts.get in the source, missing keys counting as 0). -/
structure Counts where
  c00 : ℕ
  c01 : ℕ
  c10 : ℕ
  c11 : ℕ
deriving DecidableEq, Repr

/-- n_same = counts.get('00', 0) + counts.get('11', 0). -/
def nSame (c : Counts) : ℕ := c.c00 + c.c11

/-- n_diff = counts.get('01', 0) + counts.get('10', 0). -/
def nDiff (c : Counts) : ℕ := c.c01 + c.c10

/-- corr = (n_same - n_diff) / shots, the correlation computed identically in
run_chsh (line 83) and run_eve_attack (line 227). -/
def corrQ (c : Counts) (shots : ℕ) : ℚ :=
  (((nSame c : ℤ) - (nDiff c : ℤ) : ℤ) : ℚ) / (shots : ℚ)

/-- Gates appearing in the source circuits.  ry records the basis angle in
degrees whose emitted instruction argument is -2 * np.radians(thetaDeg);
measure q c measures qubit q into classical bit c. -/
inductive Gate where
  | h (q : ℕ)
  | cx (c t : ℕ)
  | ry (thetaDeg : ℚ) (q : ℕ)
  | x (q : ℕ)
  | measure (q c : ℕ)
deriving DecidableEq, Repr

/-- A circuit is the list of gates applied, in order, to a fresh
QuantumCircuit(2, 2), i.e. to the state |00>. -/
abbrev Circuit := List Gate

/-- The four canonical CHSH angle pairs of run_chsh and run_eve_attack. -/
def chshPairs : List (ℚ × ℚ) := [(0, 22.5), (0, 67.5), (45, 22.5), (45, 67.5)]

/-- The plain CHSH / sifting circuit: h(0); cx(0,1); ry(-2 rad θa, 0);
ry(-2 rad θb, 1); measure(0,0); measure(1,1). -/
def chshCircuit (θa θb : ℚ) : Circuit :=
  [.h 0, .cx 0 1, .ry θa 0, .ry θb 1, .measure 0 0, .measure 1 1]

/-- Eve's interception circuit (run_eve_attack lines 171-184): the Bell pair
is rotated by the same eve angle on both qubits and measured. -/
def eveMeasCircuit (e : ℚ) : Circuit :=
  [.h 0, .cx 0 1, .ry e 0, .ry e 1, .measure 0 0, .measure 1 1]

/-- Eve's resend circuit (run_eve_attack lines 191-203): a fresh
QuantumCircuit(2,2) (state |00>), x(0) if Eve saw bitA = 1, x(1) if Eve saw
bitB = 1, then the legitimate rotations and measurements. -/
def resendCircuit (ba bb : Bool) (θa θb : ℚ) : Circuit :=
  (if ba then [Gate.x 0] else []) ++ (if bb then [Gate.x 1] else []) ++
  [.ry θa 0, .ry θb 1, .measure 0 0, .measure 1 1]

/-- Eve's random basis candidates, np.random.choice([0, 45, 90]). -/
def eveAngleOpts : List ℚ := [0, 45, 90]

/-- Alice's basis candidates in run_keygen. -/
def basisOptsA : List ℕ := [0, 45, 90]

/-- Bob's basis candidates in run_keygen. -/
def basisOptsB : List ℕ := [45, 90, 135]

/-- Python exceptions relevant here.  The source never raises
invalidArgument; the constructor exists so that its absence can be stated. -/
inductive PyErr where
  | zeroDivisionError
  | invalidArgument
deriving DecidableEq, Repr

/-- Result record of run_chsh. -/
structure ChshResult where
  s_value : ℚ
  correlations : List ℚ
  violation : Bool
deriving DecidableEq, Repr

/-- Loop state of run_chsh: cCur counts completed shots-runs (and indexes the
counts oracle), corrs the rounded correlations appended so far, subs the
ordered (circuit, shots) submissions made to the simulator. -/
structure ChshState where
  cCur : ℕ
  corrs : List ℚ
  subs : List (Circuit × ℕ)
deriving Repr

/-- One iteration of the run_chsh loop body (lines 54-84): build the circuit,
submit it with the requested shots, then compute the correlation; the
division corr = (n_same - n_diff) / req.shots raises ZeroDivisionError when
shots = 0, after the submission already happened. -/
def chshStep (shots : ℕ) (env : ℕ → Counts) (st : ChshState) (θa θb : ℚ) :
    ChshState × Option PyErr :=
  let qc := chshCircuit θa θb
  let subs1 := st.subs ++ [(qc, shots)]
  if shots = 0 then
    ({ st with subs := subs1 }, some .zeroDivisionError)
  else
    ({ cCur := st.cCur + 1,
       corrs := st.corrs ++ [pyRound4 (corrQ (env st.cCur) shots)],
       subs := subs1 }, none)

/-- The run_chsh loop over the four angle pairs; an exception aborts it. -/
def chshLoop (shots : ℕ) (env : ℕ → Counts) :
    List (ℚ × ℚ) → ChshState → ChshState × Option PyErr
  | [], st => (st, none)
  | p :: rest, st =>
    match chshStep shots env st p.1 p.2 with
    | (st1, some e) => (st1, some e)
    | (st1, none) => chshLoop shots env rest st1

/-- run_chsh (lines 38-97): loop over the four pairs, then
s_raw = correlations[0] - correlations[1] + correlations[2] + correlations[3],
s_value = abs(s_raw); the response rounds s_value to 4 decimals while the
violation flag compares the unrounded s_value to 2.0. -/
def runChsh (shots : ℕ) (env : ℕ → Counts) :
    Except PyErr ChshResult × ChshState :=
  match chshLoop shots env chshPairs { cCur := 0, corrs := [], subs := [] } with
  | (st, some e) => (.error e, st)
  | (st, none) =>
    let s := |st.corrs.getD 0 0 - st.corrs.getD 1 0 + st.corrs.getD 2 0 +
              st.corrs.getD 3 0|
    (.ok { s_value := pyRound4 s,
           correlations := st.corrs,
           violation := decide (s > 2) }, st)

/-- Random/simulator oracles consumed by run_eve_attack: bern n is the n-th
np.random.random() draw, eveAngleIdx n the n-th np.random.choice index into
eveAngleOpts, sample1 n the (bitA, bitB) outcome of the n-th single-shot
simulator run, and counts i the counts of the shots-run for angle pair i. -/
structure EveEnv where
  bern : ℕ → ℚ
  eveAngleIdx : ℕ → Fin 3
  sample1 : ℕ → Bool × Bool
  counts : ℕ → Counts

/-- Loop state of run_eve_attack: bCur counts Bernoulli draws (one per angle
pair, also indexing the counts oracle), iCur counts intercept branches taken
(indexing eveAngleIdx and sample1), corrs the unrounded correlations, subs
all (circuit, shots) submissions in order, mains the per-pair circuit of the
shots-run only. -/
structure EveState where
  bCur : ℕ
  iCur : ℕ
  corrs : List ℚ
  subs : List (Circuit × ℕ)
  mains : List Circuit
deriving Repr

/-- One iteration of the run_eve_attack loop body (lines 164-228): a single
Bernoulli draw decides the branch; the intercept branch draws one eve angle,
runs the interception circuit once (shots=1), builds the resend circuit from
Eve's single observed outcome and submits it with all the requested shots;
the other branch submits the plain CHSH circuit.  The correlation division
raises ZeroDivisionError when shots = 0, after the submission. -/
def eveStep (shots : ℕ) (prob : ℚ) (env : EveEnv) (st : EveState)
    (θa θb : ℚ) : EveState × Option PyErr :=
  if env.bern st.bCur < prob then
    let e := eveAngleOpts.get (env.eveAngleIdx st.iCur)
    let ba := (env.sample1 st.iCur).1
    let bb := (env.sample1 st.iCur).2
    let qcE := eveMeasCircuit e
    let qcR := resendCircuit ba bb θa θb
    let st1 : EveState :=
      { bCur := st.bCur + 1, iCur := st.iCur + 1, corrs := st.corrs,
        subs := st.subs ++ [(qcE, 1), (qcR, shots)],
        mains := st.mains ++ [qcR] }
    if shots = 0 then (st1, some .zeroDivisionError)
    else ({ st1 with corrs := st.corrs ++ [corrQ (env.counts st.bCur) shots] },
          none)
  else
    let qc := chshCircuit θa θb
    let st1 : EveState :=
      { bCur := st.bCur + 1, iCur := st.iCur, corrs := st.corrs,
        subs := st.subs ++ [(qc, shots)], mains := st.mains ++ [qc] }
    if shots = 0 then (st1, some .zeroDivisionError)
    else ({ st1 with corrs := st.corrs ++ [corrQ (env.counts st.bCur) shots] },
          none)

/-- The run_eve_attack loop over the four angle pairs. -/
def eveLoop (shots : ℕ) (prob : ℚ) (env : EveEnv) :
    List (ℚ × ℚ) → EveState → EveState × Option PyErr
  | [], st => (st, none)
  | p :: rest, st =>
    match eveStep shots prob env st p.1 p.2 with
    | (st1, some e) => (st1, some e)
    | (st1, none) => eveLoop shots prob env rest st1

/-- Result record of run_eve_attack. -/
structure AttackResult where
  s_value : ℚ
  correlations : List ℚ
  is_secure : Bool
  eve_active : Bool
deriving DecidableEq, Repr

/-- The initial loop state of run_eve_attack. -/
def initEveState : EveState :=
  { bCur := 0, iCur := 0, corrs := [], subs := [], mains := [] }

/-- run_eve_attack (lines 155-240): loop over the four pairs, then
s_value = abs(correlations[0] - correlations[1] + correlations[2] +
correlations[3]); the response rounds s_value to 4 decimals while is_secure
compares the unrounded s_value to 2.0, and eve_active = intercept_prob > 0.
Unlike run_chsh, the correlations are not rounded. -/
def runEveAttack (shots : ℕ) (prob : ℚ) (env : EveEnv) :
    Except PyErr AttackResult × EveState :=
  match eveLoop shots prob env chshPairs initEveState with
  | (st, some e) => (.error e, st)
  | (st, none) =>
    let s := |st.corrs.getD 0 0 - st.corrs.getD 1 0 + st.corrs.getD 2 0 +
              st.corrs.getD 3 0|
    (.ok { s_value := pyRound4 s,
           correlations := st.corrs,
           is_secure := decide (s > 2),
           eve_active := decide (prob > 0) }, st)

/-- Random/simulator oracles consumed by run_keygen: basisA n and basisB n
are the n-th np.random.choice index draws into the two candidate sets, and
sample1 n the (bitA, bitB) outcome of the n-th single-shot run. -/
structure KeygenEnv where
  basisA : ℕ → Fin 3
  basisB : ℕ → Fin 3
  sample1 : ℕ → Bool × Bool

/-- Result record of run_keygen. -/
structure KeygenResult where
  alice_bases : List ℕ
  bob_bases : List ℕ
  raw_bits_a : List ℕ
  raw_bits_b : List ℕ
deriving DecidableEq, Repr

/-- The run_keygen loop (lines 114-144): fuel iterations remain, i is the
iteration index; each iteration draws both bases, submits the sifting circuit
for a single shot, and appends bases and bits (bitA = res[1] is the qubit-0
bit, bitB = res[0] the qubit-1 bit). -/
def keygenLoop (env : KeygenEnv) :
    ℕ → ℕ → KeygenResult → List (Circuit × ℕ) →
    KeygenResult × List (Circuit × ℕ)
  | 0, _, acc, subs => (acc, subs)
  | fuel + 1, i, acc, subs =>
    let ba := basisOptsA.get (env.basisA i)
    let bb := basisOptsB.get (env.basisB i)
    let qc := chshCircuit (ba : ℚ) (bb : ℚ)
    let bitA : ℕ := if (env.sample1 i).1 then 1 else 0
    let bitB : ℕ := if (env.sample1 i).2 then 1 else 0
    keygenLoop env fuel (i + 1)
      { alice_bases := acc.alice_bases ++ [ba],
        bob_bases := acc.bob_bases ++ [bb],
        raw_bits_a := acc.raw_bits_a ++ [bitA],
        raw_bits_b := acc.raw_bits_b ++ [bitB] }
      (subs ++ [(qc, 1)])

/-- run_keygen (lines 101-151): count independent single-shot circuits; the
raw bases and bits of both parties are returned in full. -/
def runKeygen (count : ℕ) (env : KeygenEnv) :
    KeygenResult × List (Circuit × ℕ) :=
  keygenLoop env count 0
    { alice_bases := [], bob_bases := [], raw_bits_a := [], raw_bits_b := [] }
    []

/-! State-vector semantics of the gate set, used to check the circuit
conventions.  Basis index i encodes the joint label with bitA (qubit 0) the
least significant bit: i = bitA + 2 * bitB, so index 0 is |00> and index 3 is
|11> (Qiskit little-endian order). -/

/-- np.radians: degrees to radians. -/
noncomputable def degToRad (d : ℚ) : ℝ := (d : ℝ) * Real.pi / 180

/-- The real argument the source passes to qc.ry for basis angle d in
degrees: -2 * np.radians(d). -/
noncomputable def ryArg (d : ℚ) : ℝ := -2 * degToRad d

/-- Action of one gate on a two-qubit state vector.  ry d q applies the
standard Y-rotation matrix RY(t) = [[cos(t/2), -sin(t/2)], [sin(t/2),
cos(t/2)]] with t = ryArg d on qubit q; measurement gates leave the
pre-measurement amplitudes unchanged (sampling is modelled by oracles). -/
noncomputable def applyGate : Gate → (Fin 4 → ℝ) → Fin 4 → ℝ
  | .h 0, ψ => fun i =>
      if i = 0 then (ψ 0 + ψ 1) / Real.sqrt 2
      else if i = 1 then (ψ 0 - ψ 1) / Real.sqrt 2
      else if i = 2 then (ψ 2 + ψ 3) / Real.sqrt 2
      else (ψ 2 - ψ 3) / Real.sqrt 2
  | .h 1, ψ => fun i =>
      if i = 0 then (ψ 0 + ψ 2) / Real.sqrt 2
      else if i = 2 then (ψ 0 - ψ 2) / Real.sqrt 2
      else if i = 1 then (ψ 1 + ψ 3) / Real.sqrt 2
      else (ψ 1 - ψ 3) / Real.sqrt 2
  | .cx 0 1, ψ => fun i => if i = 1 then ψ 3 else if i = 3 then ψ 1 else ψ i
  | .x 0, ψ => fun i =>
      if i = 0 then ψ 1 else if i = 1 then ψ 0
      else if i = 2 then ψ 3 else ψ 2
  | .x 1, ψ => fun i =>
      if i = 0 then ψ 2 else if i = 2 then ψ 0
      else if i = 1 then ψ 3 else ψ 1
  | .ry d 0, ψ => fun i =>
      if i = 0 then Real.cos (ryArg d / 2) * ψ 0 - Real.sin (ryArg d / 2) * ψ 1
      else if i = 1 then
        Real.sin (ryArg d / 2) * ψ 0 + Real.cos (ryArg d / 2) * ψ 1
      else if i = 2 then
        Real.cos (ryArg d / 2) * ψ 2 - Real.sin (ryArg d / 2) * ψ 3
      else Real.sin (ryArg d / 2) * ψ 2 + Real.cos (ryArg d / 2) * ψ 3
  | .ry d 1, ψ => fun i =>
      if i = 0 then Real.cos (ryArg d / 2) * ψ 0 - Real.sin (ryArg d / 2) * ψ 2
      else if i = 2 then
        Real.sin (ryArg d / 2) * ψ 0 + Real.cos (ryArg d / 2) * ψ 2
      else if i = 1 then
        Real.cos (ryArg d / 2) * ψ 1 - Real.sin (ryArg d / 2) * ψ 3
      else Real.sin (ryArg d / 2) * ψ 1 + Real.cos (ryArg d / 2) * ψ 3
  | _, ψ => ψ

/-- Run a circuit on a state vector, applying its gates in order. -/
noncomputable def runCircuit (cir : Circuit) (ψ : Fin 4 → ℝ) : Fin 4 → ℝ :=
  cir.foldl (fun s g => applyGate g s) ψ

/-- The initial state |00> of a fresh QuantumCircuit(2, 2). -/
def ket00 : Fin 4 → ℝ := fun i => if i = 0 then 1 else 0

/-- The Bell state (|00> + |11>) / sqrt 2. -/
noncomputable def bellState : Fin 4 → ℝ :=
  fun i => if i = 0 ∨ i = 3 then 1 / Real.sqrt 2 else 0

/-! Closed forms for the run_chsh loop, and the concrete oracle environments
used by witnesses and counterexamples. -/

/-- The rounded correlation run_chsh computes for angle pair i. -/
def chshE (env : ℕ → Counts) (shots : ℕ) (i : ℕ) : ℚ :=
  pyRound4 (corrQ (env i) shots)

/-- The four correlations run_chsh reports, in pair order. -/
def chshCorrs (env : ℕ → Counts) (shots : ℕ) : List ℚ :=
  [chshE env shots 0, chshE env shots 1, chshE env shots 2, chshE env shots 3]

/-- The unrounded S-statistic of run_chsh. -/
def chshSabs (env : ℕ → Counts) (shots : ℕ) : ℚ :=
  |chshE env shots 0 - chshE env shots 1 + chshE env shots 2 +
   chshE env shots 3|

/-- The simulator submissions run_chsh makes, in order. -/
def chshSubs (shots : ℕ) : List (Circuit × ℕ) :=
  [(chshCircuit 0 22.5, shots), (chshCircuit 0 67.5, shots),
   (chshCircuit 45 22.5, shots), (chshCircuit 45 67.5, shots)]

/-- Counts oracle: every run reports 4 shots all on key 00 (correlation 1). -/
def envConst4 : ℕ → Counts := fun _ => { c00 := 4, c01 := 0, c10 := 0, c11 := 0 }

/-- Counts oracle of the mocked test: 80 shots on key 00 except pair 1, which
puts all 80 on key 01, so the correlations are [1, -1, 1, 1]. -/
def envMock80 : ℕ → Counts := fun i =>
  if i = 1 then { c00 := 0, c01 := 80, c10 := 0, c11 := 0 }
  else { c00 := 80, c01 := 0, c10 := 0, c11 := 0 }

/-- Counts oracle: every run reports 3 shots split 2 / 1, correlation 1/3. -/
def envThirds : ℕ → Counts := fun _ => { c00 := 2, c01 := 1, c10 := 0, c11 := 0 }

/-- Counts oracle with 100000 shots per run giving correlations
[1, -1, 0.00002, 0.00002], hence unrounded S = 2.00004. -/
def envTie : ℕ → Counts := fun i =>
  if i = 0 then { c00 := 100000, c01 := 0, c10 := 0, c11 := 0 }
  else if i = 1 then { c00 := 0, c01 := 100000, c10 := 0, c11 := 0 }
  else { c00 := 50001, c01 := 49999, c10 := 0, c11 := 0 }

/-- Eve environment in which every Bernoulli draw is 0 (all pairs attacked
whenever the intercept probability is positive). -/
def eveEnvAll : EveEnv :=
  { bern := fun _ => 0, eveAngleIdx := fun _ => 0,
    sample1 := fun _ => (false, false),
    counts := fun _ => { c00 := 1, c01 := 1, c10 := 1, c11 := 0 } }

/-- Eve environment in which every Bernoulli draw is 9/10 (no pair attacked
at probability 0) and the counts match envThirds. -/
def eveEnvPlain : EveEnv :=
  { bern := fun _ => 9/10, eveAngleIdx := fun _ => 0,
    sample1 := fun _ => (false, false), counts := envThirds }

/-- Eve environment with Bernoulli draws 9/10 and the envTie counts. -/
def eveEnvTie : EveEnv :=
  { bern := fun _ => 9/10, eveAngleIdx := fun _ => 0,
    sample1 := fun _ => (false, false), counts := envTie }

/-- Eve environment alternating attacked and clean pairs, with nontrivial
Eve outcomes. -/
def eveEnvMix : EveEnv :=
  { bern := fun n => if n % 2 = 0 then 0 else 1,
    eveAngleIdx := fun _ => 1,
    sample1 := fun n => (decide (n % 2 = 0), false),
    counts := fun _ => { c00 := 2, c01 := 1, c10 := 1, c11 := 1 } }

/-- Eve environment with constant draws 1/2, Eve angle index 2 and Eve
outcome (1, 1). -/
def eveEnvHalf : EveEnv :=
  { bern := fun _ => 1/2, eveAngleIdx := fun _ => 2,
    sample1 := fun _ => (true, true),
    counts := fun _ => { c00 := 4, c01 := 0, c10 := 0, c11 := 0 } }

/-- Keygen environment cycling through the candidate indices. -/
def keyEnvCyc : KeygenEnv :=
  { basisA := fun n => ⟨n % 3, Nat.mod_lt n (by norm_num)⟩,
    basisB := fun n => ⟨(n + 1) % 3, Nat.mod_lt (n + 1) (by norm_num)⟩,
    sample1 := fun n => (decide (n % 2 = 0), decide (n % 3 = 0)) }

/-- The circuits of the per-pair shots-runs of run_eve_attack, as a function
of the Bernoulli cursor b and intercept cursor i: each angle pair consumes
exactly one Bernoulli draw (b advances by one per pair, never per shot), and
an attacked pair additionally consumes one Eve draw (i advances) whose single
observed outcome fixes that pair's resend circuit.  This is the shape the
loop is proved to produce. -/
def eveMainShapes (prob : ℚ) (env : EveEnv) :
    List (ℚ × ℚ) → ℕ → ℕ → List Circuit
  | [], _, _ => []
  | p :: rest, b, i =>
    if env.bern b < prob then
      resendCircuit (env.sample1 i).1 (env.sample1 i).2 p.1 p.2 ::
        eveMainShapes prob env rest (b + 1) (i + 1)
    else
      chshCircuit p.1 p.2 :: eveMainShapes prob env rest (b + 1) i

/-! Basic lemmas about rounding and the run_chsh loop. -/

lemma roundHalfEven_intCast (k : ℤ) : roundHalfEven (k : ℚ) = k := by
  unfold roundHalfEven
  simp

lemma pyRound4_eq_div (x : ℚ) : ∃ k : ℤ, pyRound4 x = (k : ℚ) / 10000 :=
  ⟨roundHalfEven (x * 10000), rfl⟩

lemma pyRound4_int_div (k : ℤ) :
    pyRound4 ((k : ℚ) / 10000) = (k : ℚ) / 10000 := by
  unfold pyRound4
  rw [div_mul_cancel₀ _ (by norm_num : (10000 : ℚ) ≠ 0), roundHalfEven_intCast]

lemma pyRound4_abs_combo (a b c d : ℚ) :
    pyRound4 |pyRound4 a - pyRound4 b + pyRound4 c + pyRound4 d| =
    |pyRound4 a - pyRound4 b + pyRound4 c + pyRound4 d| := by
  obtain ⟨k0, h0⟩ := pyRound4_eq_div a
  obtain ⟨k1, h1⟩ := pyRound4_eq_div b
  obtain ⟨k2, h2⟩ := pyRound4_eq_div c
  obtain ⟨k3, h3⟩ := pyRound4_eq_div d
  rw [h0, h1, h2, h3]
  have hsum : (k0 : ℚ) / 10000 - (k1 : ℚ) / 10000 + (k2 : ℚ) / 10000 +
      (k3 : ℚ) / 10000 = ((k0 - k1 + k2 + k3 : ℤ) : ℚ) / 10000 := by
    push_cast
    ring
  rw [hsum, abs_div, abs_of_pos (by norm_num : (0 : ℚ) < 10000),
    ← Int.cast_abs, pyRound4_int_div]

lemma pyRound4_intCast (k : ℤ) : pyRound4 ((k : ℤ) : ℚ) = (k : ℚ) := by
  unfold pyRound4
  have hk : ((k : ℤ) : ℚ) * 10000 = ((k * 10000 : ℤ) : ℚ) := by
    push_cast
    ring
  rw [hk, roundHalfEven_intCast]
  push_cast
  field_simp

lemma pyRound4_one : pyRound4 1 = 1 := by
  have := pyRound4_intCast 1
  simpa using this

lemma pyRound4_negOne : pyRound4 (-1) = -1 := by
  have := pyRound4_intCast (-1)
  simpa using this

lemma pyRound4_four : pyRound4 4 = 4 := by
  have := pyRound4_intCast 4
  simpa using this

lemma chshStep_snd (shots : ℕ) (env : ℕ → Counts) (st : ChshState)
    (θa θb : ℚ) (hs : shots ≠ 0) :
    chshStep shots env st θa θb =
      ({ cCur := st.cCur + 1,
         corrs := st.corrs ++ [pyRound4 (corrQ (env st.cCur) shots)],
         subs := st.subs ++ [(chshCircuit θa θb, shots)] }, none) := by
  unfold chshStep
  simp [hs]

lemma runChsh_ok (shots : ℕ) (env : ℕ → Counts) (hs : shots ≠ 0) :
    runChsh shots env =
      (.ok { s_value := pyRound4 (chshSabs env shots),
             correlations := chshCorrs env shots,
             violation := decide (chshSabs env shots > 2) },
       { cCur := 4, corrs := chshCorrs env shots, subs := chshSubs shots }) := by
  have hloop : chshLoop shots env chshPairs
      { cCur := 0, corrs := [], subs := [] } =
      ({ cCur := 4, corrs := chshCorrs env shots, subs := chshSubs shots },
       none) := by
    simp [chshPairs, chshLoop, chshStep_snd shots env _ _ _ hs, chshCorrs,
      chshSubs, chshE]
  unfold runChsh
  rw [hloop]
  simp [chshSabs, chshCorrs, chshE]

/-! Lemmas about the run_eve_attack loop. -/

lemma eveStep_snd_none (shots : ℕ) (prob : ℚ) (env : EveEnv) (st : EveState)
    (θa θb : ℚ) (hs : shots ≠ 0) :
    (eveStep shots prob env st θa θb).2 = none := by
  unfold eveStep
  split_ifs <;> simp_all

lemma eveLoop_cons (shots : ℕ) (prob : ℚ) (env : EveEnv) (p : ℚ × ℚ)
    (rest : List (ℚ × ℚ)) (st : EveState) (hs : shots ≠ 0) :
    eveLoop shots prob env (p :: rest) st =
      eveLoop shots prob env rest (eveStep shots prob env st p.1 p.2).1 := by
  rw [eveLoop]
  rcases h : eveStep shots prob env st p.1 p.2 with ⟨st1, o⟩
  have ho : o = none := by
    have := eveStep_snd_none shots prob env st p.1 p.2 hs
    rw [h] at this
    exact this
  subst ho
  simp

lemma eveLoop_snd_none (shots : ℕ) (prob : ℚ) (env : EveEnv)
    (ps : List (ℚ × ℚ)) (st : EveState) (hs : shots ≠ 0) :
    (eveLoop shots prob env ps st).2 = none := by
  induction ps generalizing st with
  | nil => rfl
  | cons p rest ih =>
    rw [eveLoop_cons shots prob env p rest st hs]
    exact ih _

lemma eveStep_intercept (shots : ℕ) (prob : ℚ) (env : EveEnv) (st : EveState)
    (θa θb : ℚ) (hs : shots ≠ 0) (hb : env.bern st.bCur < prob) :
    eveStep shots prob env st θa θb =
      ({ bCur := st.bCur + 1, iCur := st.iCur + 1,
         corrs := st.corrs ++ [corrQ (env.counts st.bCur) shots],
         subs := st.subs ++
           [(eveMeasCircuit (eveAngleOpts.get (env.eveAngleIdx st.iCur)), 1),
            (resendCircuit (env.sample1 st.iCur).1 (env.sample1 st.iCur).2
              θa θb, shots)],
         mains := st.mains ++
           [resendCircuit (env.sample1 st.iCur).1 (env.sample1 st.iCur).2
             θa θb] }, none) := by
  unfold eveStep
  simp [hb, hs]

lemma eveStep_plain (shots : ℕ) (prob : ℚ) (env : EveEnv) (st : EveState)
    (θa θb : ℚ) (hs : shots ≠ 0) (hb : ¬ env.bern st.bCur < prob) :
    eveStep shots prob env st θa θb =
      ({ bCur := st.bCur + 1, iCur := st.iCur,
         corrs := st.corrs ++ [corrQ (env.counts st.bCur) shots],
         subs := st.subs ++ [(chshCircuit θa θb, shots)],
         mains := st.mains ++ [chshCircuit θa θb] }, none) := by
  unfold eveStep
  simp [hb, hs]

lemma eveStep_bCur (shots : ℕ) (prob : ℚ) (env : EveEnv) (st : EveState)
    (θa θb : ℚ) :
    (eveStep shots prob env st θa θb).1.bCur = st.bCur + 1 := by
  unfold eveStep
  split_ifs <;> rfl

lemma eveLoop_bCur (shots : ℕ) (prob : ℚ) (env : EveEnv)
    (ps : List (ℚ × ℚ)) (st : EveState) (hs : shots ≠ 0) :
    (eveLoop shots prob env ps st).1.bCur = st.bCur + ps.length := by
  induction ps generalizing st with
  | nil => simp [eveLoop]
  | cons p rest ih =>
    rw [eveLoop_cons shots prob env p rest st hs, ih, eveStep_bCur]
    simp
    omega

lemma runEveAttack_eq (shots : ℕ) (prob : ℚ) (env : EveEnv) (hs : shots ≠ 0) :
    runEveAttack shots prob env =
      (.ok { s_value := pyRound4
               |(eveLoop shots prob env chshPairs initEveState).1.corrs.getD 0 0
                - (eveLoop shots prob env chshPairs initEveState).1.corrs.getD 1 0
                + (eveLoop shots prob env chshPairs initEveState).1.corrs.getD 2 0
                + (eveLoop shots prob env chshPairs initEveState).1.corrs.getD 3 0|,
             correlations := (eveLoop shots prob env chshPairs initEveState).1.corrs,
             is_secure := decide
               (|(eveLoop shots prob env chshPairs initEveState).1.corrs.getD 0 0
                 - (eveLoop shots prob env chshPairs initEveState).1.corrs.getD 1 0
                 + (eveLoop shots prob env chshPairs initEveState).1.corrs.getD 2 0
                 + (eveLoop shots prob env chshPairs initEveState).1.corrs.getD 3 0| > 2),
             eve_active := decide (prob > 0) },
       (eveLoop shots prob env chshPairs initEveState).1) := by
  unfold runEveAttack
  rcases h : eveLoop shots prob env chshPairs initEveState with ⟨st, o⟩
  have ho : o = none := by
    have := eveLoop_snd_none shots prob env chshPairs initEveState hs
    rw [h] at this
    exact this
  subst ho
  simp

lemma eveLoop_all_intercept (shots : ℕ) (prob : ℚ) (env : EveEnv)
    (hs : shots ≠ 0) (hb0 : env.bern 0 < prob) (hb1 : env.bern 1 < prob)
    (hb2 : env.bern 2 < prob) (hb3 : env.bern 3 < prob) :
    (eveLoop shots prob env chshPairs initEveState).1 =
      { bCur := 4, iCur := 4,
        corrs := [corrQ (env.counts 0) shots, corrQ (env.counts 1) shots,
                  corrQ (env.counts 2) shots, corrQ (env.counts 3) shots],
        subs := [(eveMeasCircuit (eveAngleOpts.get (env.eveAngleIdx 0)), 1),
                 (resendCircuit (env.sample1 0).1 (env.sample1 0).2 0 22.5,
                  shots),
                 (eveMeasCircuit (eveAngleOpts.get (env.eveAngleIdx 1)), 1),
                 (resendCircuit (env.sample1 1).1 (env.sample1 1).2 0 67.5,
                  shots),
                 (eveMeasCircuit (eveAngleOpts.get (env.eveAngleIdx 2)), 1),
                 (resendCircuit (env.sample1 2).1 (env.sample1 2).2 45 22.5,
                  shots),
                 (eveMeasCircuit (eveAngleOpts.get (env.eveAngleIdx 3)), 1),
                 (resendCircuit (env.sample1 3).1 (env.sample1 3).2 45 67.5,
                  shots)],
        mains := [resendCircuit (env.sample1 0).1 (env.sample1 0).2 0 22.5,
                  resendCircuit (env.sample1 1).1 (env.sample1 1).2 0 67.5,
                  resendCircuit (env.sample1 2).1 (env.sample1 2).2 45 22.5,
                  resendCircuit (env.sample1 3).1 (env.sample1 3).2 45 67.5] }
    := by
  have h0 : (eveStep shots prob env initEveState 0 22.5).1 =
      { bCur := 1, iCur := 1, corrs := [corrQ (env.counts 0) shots],
        subs := [(eveMeasCircuit (eveAngleOpts.get (env.eveAngleIdx 0)), 1),
                 (resendCircuit (env.sample1 0).1 (env.sample1 0).2 0 22.5,
                  shots)],
        mains := [resendCircuit (env.sample1 0).1 (env.sample1 0).2 0 22.5] }
      := by
    rw [eveStep_intercept shots prob env initEveState 0 22.5 hs hb0]
    rfl
  have h1 : (eveStep shots prob env
      { bCur := 1, iCur := 1, corrs := [corrQ (env.counts 0) shots],
        subs := [(eveMeasCircuit (eveAngleOpts.get (env.eveAngleIdx 0)), 1),
                 (resendCircuit (env.sample1 0).1 (env.sample1 0).2 0 22.5,
                  shots)],
        mains := [resendCircuit (env.sample1 0).1 (env.sample1 0).2 0 22.5] }
      0 67.5).1 =
      { bCur := 2, iCur := 2,
        corrs := [corrQ (env.counts 0) shots, corrQ (env.counts 1) shots],
        subs := [(eveMeasCircuit (eveAngleOpts.get (env.eveAngleIdx 0)), 1),
                 (resendCircuit (env.sample1 0).1 (env.sample1 0).2 0 22.5,
                  shots),
                 (eveMeasCircuit (eveAngleOpts.get (env.eveAngleIdx 1)), 1),
                 (resendCircuit (env.sample1 1).1 (env.sample1 1).2 0 67.5,
                  shots)],
        mains := [resendCircuit (env.sample1 0).1 (env.sample1 0).2 0 22.5,
                  resendCircuit (env.sample1 1).1 (env.sample1 1).2 0 67.5] }
      := by
    rw [eveStep_intercept shots prob env _ 0 67.5 hs hb1]
    rfl
  have h2 : (eveStep shots prob env
      { bCur := 2, iCur := 2,
        corrs := [corrQ (env.counts 0) shots, corrQ (env.counts 1) shots],
        subs := [(eveMeasCircuit (eveAngleOpts.get (env.eveAngleIdx 0)), 1),
                 (resendCircuit (env.sample1 0).1 (env.sample1 0).2 0 22.5,
                  shots),
                 (eveMeasCircuit (eveAngleOpts.get (env.eveAngleIdx 1)), 1),
                 (resendCircuit (env.sample1 1).1 (env.sample1 1).2 0 67.5,
                  shots)],
        mains := [resendCircuit (env.sample1 0).1 (env.sample1 0).2 0 22.5,
                  resendCircuit (env.sample1 1).1 (env.sample1 1).2 0 67.5] }
      45 22.5).1 =
      { bCur := 3, iCur := 3,
        corrs := [corrQ (env.counts 0) shots, corrQ (env.counts 1) shots,
                  corrQ (env.counts 2) shots],
        subs := [(eveMeasCircuit (eveAngleOpts.get (env.eveAngleIdx 0)), 1),
                 (resendCircuit (env.sample1 0).1 (env.sample1 0).2 0 22.5,
                  shots),
                 (eveMeasCircuit (eveAngleOpts.get (env.eveAngleIdx 1)), 1),
                 (resendCircuit (env.sample1 1).1 (env.sample1 1).2 0 67.5,
                  shots),
                 (eveMeasCircuit (eveAngleOpts.get (env.eveAngleIdx 2)), 1),
                 (resendCircuit (env.sample1 2).1 (env.sample1 2).2 45 22.5,
                  shots)],
        mains := [resendCircuit (env.sample1 0).1 (env.sample1 0).2 0 22.5,
                  resendCircuit (env.sample1 1).1 (env.sample1 1).2 0 67.5,
                  resendCircuit (env.sample1 2).1 (env.sample1 2).2 45 22.5] }
      := by
    rw [eveStep_intercept shots prob env _ 45 22.5 hs hb2]
    rfl
  have h3 : (eveStep shots prob env
      { bCur := 3, iCur := 3,
        corrs := [corrQ (env.counts 0) shots, corrQ (env.counts 1) shots,
                  corrQ (env.counts 2) shots],
        subs := [(eveMeasCircuit (eveAngleOpts.get (env.eveAngleIdx 0)), 1),
                 (resendCircuit (env.sample1 0).1 (env.sample1 0).2 0 22.5,
                  shots),
                 (eveMeasCircuit (eveAngleOpts.get (env.eveAngleIdx 1)), 1),
                 (resendCircuit (env.sample1 1).1 (env.sample1 1).2 0 67.5,
                  shots),
                 (eveMeasCircuit (eveAngleOpts.get (env.eveAngleIdx 2)), 1),
                 (resendCircuit (env.sample1 2).1 (env.sample1 2).2 45 22.5,
                  shots)],
        mains := [resendCircuit (env.sample1 0).1 (env.sample1 0).2 0 22.5,
                  resendCircuit (env.sample1 1).1 (env.sample1 1).2 0 67.5,
                  resendCircuit (env.sample1 2).1 (env.sample1 2).2 45 22.5] }
      45 67.5).1 =
      { bCur := 4, iCur := 4,
        corrs := [corrQ (env.counts 0) shots, corrQ (env.counts 1) shots,
                  corrQ (env.counts 2) shots, corrQ (env.counts 3) shots],
        subs := [(eveMeasCircuit (eveAngleOpts.get (env.eveAngleIdx 0)), 1),
                 (resendCircuit (env.sample1 0).1 (env.sample1 0).2 0 22.5,
                  shots),
                 (eveMeasCircuit (eveAngleOpts.get (env.eveAngleIdx 1)), 1),
                 (resendCircuit (env.sample1 1).1 (env.sample1 1).2 0 67.5,
                  shots),
                 (eveMeasCircuit (eveAngleOpts.get (env.eveAngleIdx 2)), 1),
                 (resendCircuit (env.sample1 2).1 (env.sample1 2).2 45 22.5,
                  shots),
                 (eveMeasCircuit (eveAngleOpts.get (env.eveAngleIdx 3)), 1),
                 (resendCircuit (env.sample1 3).1 (env.sample1 3).2 45 67.5,
                  shots)],
        mains := [resendCircuit (env.sample1 0).1 (env.sample1 0).2 0 22.5,
                  resendCircuit (env.sample1 1).1 (env.sample1 1).2 0 67.5,
                  resendCircuit (env.sample1 2).1 (env.sample1 2).2 45 22.5,
                  resendCircuit (env.sample1 3).1 (env.sample1 3).2 45 67.5] }
      := by
    rw [eveStep_intercept shots prob env _ 45 67.5 hs hb3]
    rfl
  show (eveLoop shots prob env
    ((0, 22.5) :: (0, 67.5) :: (45, 22.5) :: (45, 67.5) :: [])
    initEveState).1 = _
  rw [eveLoop_cons _ _ _ _ _ _ hs, h0, eveLoop_cons _ _ _ _ _ _ hs, h1,
    eveLoop_cons _ _ _ _ _ _ hs, h2, eveLoop_cons _ _ _ _ _ _ hs, h3]
  rfl

lemma eveLoop_all_plain (shots : ℕ) (prob : ℚ) (env : EveEnv)
    (hs : shots ≠ 0) (hb0 : ¬ env.bern 0 < prob) (hb1 : ¬ env.bern 1 < prob)
    (hb2 : ¬ env.bern 2 < prob) (hb3 : ¬ env.bern 3 < prob) :
    (eveLoop shots prob env chshPairs initEveState).1 =
      { bCur := 4, iCur := 0,
        corrs := [corrQ (env.counts 0) shots, corrQ (env.counts 1) shots,
                  corrQ (env.counts 2) shots, corrQ (env.counts 3) shots],
        subs := chshSubs shots,
        mains := [chshCircuit 0 22.5, chshCircuit 0 67.5,
                  chshCircuit 45 22.5, chshCircuit 45 67.5] } := by
  have h0 : (eveStep shots prob env initEveState 0 22.5).1 =
      { bCur := 1, iCur := 0, corrs := [corrQ (env.counts 0) shots],
        subs := [(chshCircuit 0 22.5, shots)],
        mains := [chshCircuit 0 22.5] } := by
    rw [eveStep_plain shots prob env initEveState 0 22.5 hs hb0]
    rfl
  have h1 : (eveStep shots prob env
      { bCur := 1, iCur := 0, corrs := [corrQ (env.counts 0) shots],
        subs := [(chshCircuit 0 22.5, shots)],
        mains := [chshCircuit 0 22.5] } 0 67.5).1 =
      { bCur := 2, iCur := 0,
        corrs := [corrQ (env.counts 0) shots, corrQ (env.counts 1) shots],
        subs := [(chshCircuit 0 22.5, shots), (chshCircuit 0 67.5, shots)],
        mains := [chshCircuit 0 22.5, chshCircuit 0 67.5] } := by
    rw [eveStep_plain shots prob env _ 0 67.5 hs hb1]
    rfl
  have h2 : (eveStep shots prob env
      { bCur := 2, iCur := 0,
        corrs := [corrQ (env.counts 0) shots, corrQ (env.counts 1) shots],
        subs := [(chshCircuit 0 22.5, shots), (chshCircuit 0 67.5, shots)],
        mains := [chshCircuit 0 22.5, chshCircuit 0 67.5] } 45 22.5).1 =
      { bCur := 3, iCur := 0,
        corrs := [corrQ (env.counts 0) shots, corrQ (env.counts 1) shots,
                  corrQ (env.counts 2) shots],
        subs := [(chshCircuit 0 22.5, shots), (chshCircuit 0 67.5, shots),
                 (chshCircuit 45 22.5, shots)],
        mains := [chshCircuit 0 22.5, chshCircuit 0 67.5,
                  chshCircuit 45 22.5] } := by
    rw [eveStep_plain shots prob env _ 45 22.5 hs hb2]
    rfl
  have h3 : (eveStep shots prob env
      { bCur := 3, iCur := 0,
        corrs := [corrQ (env.counts 0) shots, corrQ (env.counts 1) shots,
                  corrQ (env.counts 2) shots],
        subs := [(chshCircuit 0 22.5, shots), (chshCircuit 0 67.5, shots),
                 (chshCircuit 45 22.5, shots)],
        mains := [chshCircuit 0 22.5, chshCircuit 0 67.5,
                  chshCircuit 45 22.5] } 45 67.5).1 =
      { bCur := 4, iCur := 0,
        corrs := [corrQ (env.counts 0) shots, corrQ (env.counts 1) shots,
                  corrQ (env.counts 2) shots, corrQ (env.counts 3) shots],
        subs := chshSubs shots,
        mains := [chshCircuit 0 22.5, chshCircuit 0 67.5,
                  chshCircuit 45 22.5, chshCircuit 45 67.5] } := by
    rw [eveStep_plain shots prob env _ 45 67.5 hs hb3]
    rfl
  show (eveLoop shots prob env
    ((0, 22.5) :: (0, 67.5) :: (45, 22.5) :: (45, 67.5) :: [])
    initEveState).1 = _
  rw [eveLoop_cons _ _ _ _ _ _ hs, h0, eveLoop_cons _ _ _ _ _ _ hs, h1,
    eveLoop_cons _ _ _ _ _ _ hs, h2, eveLoop_cons _ _ _ _ _ _ hs, h3]
  rfl

lemma bell_prep : runCircuit [Gate.h 0, Gate.cx 0 1] ket00 = bellState := by
  funext i
  fin_cases i <;>
    simp [runCircuit, applyGate, ket00, bellState, List.foldl]

/-- C1: for the correlation quadruple computed by CHSH verification, the
reported s_value equals the absolute value of the signed sum E1 - E2 + E3 +
E4 of the computed correlations, with the absolute value applied once, and
the reported violation flag equals (S > 2.0); on the mocked counts giving
correlations [1, -1, 1, 1] the reported S is 4, which differs from the value
obtained by taking absolute values of the individual correlations first. -/
theorem chsh_s_single_abs (shots : ℕ) (env : ℕ → Counts) (hs : shots ≠ 0) :
    (∃ r, (runChsh shots env).1 = .ok r ∧
      r.s_value = |r.correlations.getD 0 0 - r.correlations.getD 1 0 +
                   r.correlations.getD 2 0 + r.correlations.getD 3 0| ∧
      r.violation = decide (r.s_value > 2)) ∧
    (∃ rm, (runChsh 80 envMock80).1 = .ok rm ∧
      rm.correlations = [1, -1, 1, 1] ∧ rm.s_value = 4 ∧
      rm.s_value ≠ |(1 : ℚ)| - |(-1 : ℚ)| + |(1 : ℚ)| + |(1 : ℚ)|) := by
  constructor
  · rw [runChsh_ok shots env hs]
    refine ⟨_, rfl, ?_, ?_⟩
    · show pyRound4 (chshSabs env shots) = _
      have hgets :
          |(chshCorrs env shots).getD 0 0 - (chshCorrs env shots).getD 1 0 +
           (chshCorrs env shots).getD 2 0 + (chshCorrs env shots).getD 3 0| =
          chshSabs env shots := by
        simp [chshCorrs, chshSabs, List.getD]
      rw [hgets]
      unfold chshSabs chshE
      exact pyRound4_abs_combo _ _ _ _
    · show decide (chshSabs env shots > 2) = decide (pyRound4 (chshSabs env shots) > 2)
      have : pyRound4 (chshSabs env shots) = chshSabs env shots := by
        unfold chshSabs chshE
        exact pyRound4_abs_combo _ _ _ _
      rw [this]
  · rw [runChsh_ok 80 envMock80 (by norm_num)]
    have hE0 : chshE envMock80 80 0 = 1 := by
      have hc : corrQ (envMock80 0) 80 = 1 := by
        norm_num [corrQ, envMock80, nSame, nDiff]
      rw [chshE, hc, pyRound4_one]
    have hE1 : chshE envMock80 80 1 = -1 := by
      have hc : corrQ (envMock80 1) 80 = -1 := by
        norm_num [corrQ, envMock80, nSame, nDiff]
      rw [chshE, hc, pyRound4_negOne]
    have hE2 : chshE envMock80 80 2 = 1 := by
      have hc : corrQ (envMock80 2) 80 = 1 := by
        norm_num [corrQ, envMock80, nSame, nDiff]
      rw [chshE, hc, pyRound4_one]
    have hE3 : chshE envMock80 80 3 = 1 := by
      have hc : corrQ (envMock80 3) 80 = 1 := by
        norm_num [corrQ, envMock80, nSame, nDiff]
      rw [chshE, hc, pyRound4_one]
    have hS : chshSabs envMock80 80 = 4 := by
      rw [chshSabs, hE0, hE1, hE2, hE3,
        show (1 : ℚ) - -1 + 1 + 1 = 4 by norm_num,
        abs_of_nonneg (by norm_num : (0 : ℚ) ≤ 4)]
    refine ⟨_, rfl, ?_, ?_, ?_⟩
    · show chshCorrs envMock80 80 = _
      rw [chshCorrs, hE0, hE1, hE2, hE3]
    · show pyRound4 (chshSabs envMock80 80) = 4
      rw [hS, pyRound4_four]
    · show pyRound4 (chshSabs envMock80 80) ≠ _
      rw [hS, pyRound4_four]
      simp [abs_one, abs_neg]
      norm_num

/-- Witness for C1 at shots = 4 with the constant all-zeros-outcome
counts oracle. -/
theorem chsh_s_single_abs_witness :
    (4 : ℕ) ≠ 0 ∧
    ((∃ r, (runChsh 4 envConst4).1 = .ok r ∧
      r.s_value = |r.correlations.getD 0 0 - r.correlations.getD 1 0 +
                   r.correlations.getD 2 0 + r.correlations.getD 3 0| ∧
      r.violation = decide (r.s_value > 2)) ∧
    (∃ rm, (runChsh 80 envMock80).1 = .ok rm ∧
      rm.correlations = [1, -1, 1, 1] ∧ rm.s_value = 4 ∧
      rm.s_value ≠ |(1 : ℚ)| - |(-1 : ℚ)| + |(1 : ℚ)| + |(1 : ℚ)|)) :=
  ⟨by decide, chsh_s_single_abs 4 envConst4 (by decide)⟩

/-- C2: for counts whose four entries sum to shots with shots positive, the
correlation both endpoints compute equals (c00 + c11 - c01 - c10) / shots
and lies in the interval from -1 to 1. -/
theorem corr_formula_and_bounds (c : Counts) (shots : ℕ)
    (hsum : c.c00 + c.c01 + c.c10 + c.c11 = shots) (hpos : 0 < shots) :
    corrQ c shots =
      (((c.c00 : ℤ) + (c.c11 : ℤ) - (c.c01 : ℤ) - (c.c10 : ℤ) : ℤ) : ℚ) /
        (shots : ℚ) ∧
    -1 ≤ corrQ c shots ∧ corrQ c shots ≤ 1 := by
  have hn : (0 : ℚ) < (shots : ℚ) := by exact_mod_cast hpos
  have hle : (nSame c : ℤ) - (nDiff c : ℤ) ≤ (shots : ℤ) := by
    unfold nSame nDiff
    omega
  have hge : -(shots : ℤ) ≤ (nSame c : ℤ) - (nDiff c : ℤ) := by
    unfold nSame nDiff
    omega
  refine ⟨?_, ?_, ?_⟩
  · unfold corrQ nSame nDiff
    push_cast
    ring
  · rw [corrQ, le_div_iff₀ hn]
    have : ((-(shots : ℤ) : ℤ) : ℚ) ≤ (((nSame c : ℤ) - (nDiff c : ℤ) : ℤ) : ℚ) := by
      exact_mod_cast hge
    push_cast at this ⊢
    linarith
  · rw [corrQ, div_le_one hn]
    exact_mod_cast hle

/-- Witness for C2 at counts (3, 1, 0, 0) and shots = 4. -/
theorem corr_formula_and_bounds_witness :
    (3 + 1 + 0 + 0 = 4) ∧ (0 < 4) ∧
    (corrQ { c00 := 3, c01 := 1, c10 := 0, c11 := 0 } 4 =
      (((({ c00 := 3, c01 := 1, c10 := 0, c11 := 0 } : Counts).c00 : ℤ) +
        (({ c00 := 3, c01 := 1, c10 := 0, c11 := 0 } : Counts).c11 : ℤ) -
        (({ c00 := 3, c01 := 1, c10 := 0, c11 := 0 } : Counts).c01 : ℤ) -
        (({ c00 := 3, c01 := 1, c10 := 0, c11 := 0 } : Counts).c10 : ℤ) : ℤ) : ℚ) /
        ((4 : ℕ) : ℚ) ∧
     -1 ≤ corrQ { c00 := 3, c01 := 1, c10 := 0, c11 := 0 } 4 ∧
     corrQ { c00 := 3, c01 := 1, c10 := 0, c11 := 0 } 4 ≤ 1) :=
  ⟨by decide, by decide,
   corr_formula_and_bounds { c00 := 3, c01 := 1, c10 := 0, c11 := 0 } 4
     (by decide) (by decide)⟩

/-- C3: CHSH verification iterates the four canonical angle pairs in order
and for each submits the circuit consisting of a Hadamard on particle A and
a CNOT from A to B applied to the |00> state (which produce the Bell state
(|00> + |11>) / sqrt 2), followed by a Y rotation by -2 * theta * pi / 180
radians on each particle with its own basis angle, then measurement of both
particles. -/
theorem chsh_circuit_structure (θa θb : ℚ) (shots : ℕ) (env : ℕ → Counts)
    (hs : shots ≠ 0) :
    chshPairs = [(0, 22.5), (0, 67.5), (45, 22.5), (45, 67.5)] ∧
    (runChsh shots env).2.subs =
      [(chshCircuit 0 22.5, shots), (chshCircuit 0 67.5, shots),
       (chshCircuit 45 22.5, shots), (chshCircuit 45 67.5, shots)] ∧
    chshCircuit θa θb =
      [Gate.h 0, Gate.cx 0 1, Gate.ry θa 0, Gate.ry θb 1,
       Gate.measure 0 0, Gate.measure 1 1] ∧
    ryArg θa = -(2 * (θa : ℝ) * Real.pi / 180) ∧
    runCircuit [Gate.h 0, Gate.cx 0 1] ket00 = bellState := by
  refine ⟨rfl, ?_, rfl, ?_, bell_prep⟩
  · rw [runChsh_ok shots env hs]
    rfl
  · unfold ryArg degToRad
    ring

/-- Witness for C3 at the first angle pair with shots = 1. -/
theorem chsh_circuit_structure_witness :
    (1 : ℕ) ≠ 0 ∧
    (chshPairs = [(0, 22.5), (0, 67.5), (45, 22.5), (45, 67.5)] ∧
    (runChsh 1 envConst4).2.subs =
      [(chshCircuit 0 22.5, 1), (chshCircuit 0 67.5, 1),
       (chshCircuit 45 22.5, 1), (chshCircuit 45 67.5, 1)] ∧
    chshCircuit 0 22.5 =
      [Gate.h 0, Gate.cx 0 1, Gate.ry 0 0, Gate.ry 22.5 1,
       Gate.measure 0 0, Gate.measure 1 1] ∧
    ryArg 0 = -(2 * ((0 : ℚ) : ℝ) * Real.pi / 180) ∧
    runCircuit [Gate.h 0, Gate.cx 0 1] ket00 = bellState) :=
  ⟨by decide, chsh_circuit_structure 0 22.5 1 envConst4 (by decide)⟩

lemma eveStep_subs_prefix (shots : ℕ) (prob : ℚ) (env : EveEnv)
    (st : EveState) (θa θb : ℚ) :
    ∃ t, (eveStep shots prob env st θa θb).1.subs = st.subs ++ t := by
  unfold eveStep
  split_ifs <;> exact ⟨_, rfl⟩

lemma eveStep_corrs_prefix (shots : ℕ) (prob : ℚ) (env : EveEnv)
    (st : EveState) (θa θb : ℚ) :
    ∃ t, (eveStep shots prob env st θa θb).1.corrs = st.corrs ++ t := by
  unfold eveStep
  split_ifs
  · exact ⟨[], by simp⟩
  · exact ⟨_, rfl⟩
  · exact ⟨[], by simp⟩
  · exact ⟨_, rfl⟩

lemma eveLoop_subs_prefix (shots : ℕ) (prob : ℚ) (env : EveEnv)
    (ps : List (ℚ × ℚ)) (st : EveState) (hs : shots ≠ 0) :
    ∃ t, (eveLoop shots prob env ps st).1.subs = st.subs ++ t := by
  induction ps generalizing st with
  | nil => exact ⟨[], by simp [eveLoop]⟩
  | cons p rest ih =>
    rw [eveLoop_cons _ _ _ _ _ _ hs]
    obtain ⟨t1, h1⟩ := eveStep_subs_prefix shots prob env st p.1 p.2
    obtain ⟨t2, h2⟩ := ih (eveStep shots prob env st p.1 p.2).1
    exact ⟨t1 ++ t2, by rw [h2, h1, List.append_assoc]⟩

lemma eveLoop_corrs_prefix (shots : ℕ) (prob : ℚ) (env : EveEnv)
    (ps : List (ℚ × ℚ)) (st : EveState) (hs : shots ≠ 0) :
    ∃ t, (eveLoop shots prob env ps st).1.corrs = st.corrs ++ t := by
  induction ps generalizing st with
  | nil => exact ⟨[], by simp [eveLoop]⟩
  | cons p rest ih =>
    rw [eveLoop_cons _ _ _ _ _ _ hs]
    obtain ⟨t1, h1⟩ := eveStep_corrs_prefix shots prob env st p.1 p.2
    obtain ⟨t2, h2⟩ := ih (eveStep shots prob env st p.1 p.2).1
    exact ⟨t1 ++ t2, by rw [h2, h1, List.append_assoc]⟩

/-- C4 counterexample: no InvalidArgument validation exists.  With shots = 0
CHSH verification fails with a ZeroDivisionError, not InvalidArgument, and
only after a circuit was already submitted to the simulator; and the attack
called with intercept probability 1.5 returns an ordinary result record. -/
theorem no_validation_cex :
    (runChsh 0 envConst4).1 = .error .zeroDivisionError ∧
    (runChsh 0 envConst4).1 ≠ .error .invalidArgument ∧
    (runChsh 0 envConst4).2.subs = [(chshCircuit 0 22.5, 0)] ∧
    (∃ r, (runEveAttack 7 (3/2) eveEnvAll).1 = .ok r ∧
      r.eve_active = true) := by
  have h : (runChsh 0 envConst4).1 = .error .zeroDivisionError := rfl
  refine ⟨h, ?_, rfl, ?_⟩
  · rw [h]
    simp
  · rw [runEveAttack_eq 7 (3/2) eveEnvAll (by norm_num)]
    refine ⟨_, rfl, ?_⟩
    show decide ((3 : ℚ)/2 > 0) = true
    rw [decide_eq_true_eq]
    norm_num

/-- C4 amended: the code performs no input validation.  shots = 0 ends in a
ZeroDivisionError raised during the correlation computation of the first
angle pair, after that pair's circuit was already submitted; and
intercept_probability = 1.5 is accepted: since every np.random.random draw
is below 3/2, every angle pair is intercepted and a normal result record is
returned. -/
theorem no_validation_amended (envc : ℕ → Counts) (env : EveEnv) (shots : ℕ)
    (hs : shots ≠ 0)
    (hb0 : env.bern 0 < 3/2) (hb1 : env.bern 1 < 3/2)
    (hb2 : env.bern 2 < 3/2) (hb3 : env.bern 3 < 3/2) :
    (runChsh 0 envc).1 = .error .zeroDivisionError ∧
    (runChsh 0 envc).2.subs = [(chshCircuit 0 22.5, 0)] ∧
    (∃ r, (runEveAttack shots (3/2) env).1 = .ok r ∧ r.eve_active = true) ∧
    (runEveAttack shots (3/2) env).2.iCur = 4 := by
  refine ⟨rfl, rfl, ?_, ?_⟩
  · rw [runEveAttack_eq shots (3/2) env hs]
    refine ⟨_, rfl, ?_⟩
    show decide ((3 : ℚ)/2 > 0) = true
    rw [decide_eq_true_eq]
    norm_num
  · rw [runEveAttack_eq shots (3/2) env hs]
    show (eveLoop shots (3/2) env chshPairs initEveState).1.iCur = 4
    rw [eveLoop_all_intercept shots (3/2) env hs hb0 hb1 hb2 hb3]

/-- Witness for the amended C4 at shots = 7 with the all-zero Bernoulli
environment. -/
theorem no_validation_amended_witness :
    (7 : ℕ) ≠ 0 ∧ eveEnvAll.bern 0 < 3/2 ∧
    ((runChsh 0 envConst4).1 = .error .zeroDivisionError ∧
     (runChsh 0 envConst4).2.subs = [(chshCircuit 0 22.5, 0)] ∧
     (∃ r, (runEveAttack 7 (3/2) eveEnvAll).1 = .ok r ∧
       r.eve_active = true) ∧
     (runEveAttack 7 (3/2) eveEnvAll).2.iCur = 4) :=
  ⟨by decide, by norm_num [eveEnvAll],
   no_validation_amended envConst4 eveEnvAll 7 (by decide)
     (by norm_num [eveEnvAll]) (by norm_num [eveEnvAll])
     (by norm_num [eveEnvAll]) (by norm_num [eveEnvAll])⟩

/-- C5: when the intercept branch is taken for the first angle pair, the
trace starts with Eve's interception circuit (Bell pair, the same eve angle
rotation on both qubits, measurement of both) run for a single shot,
followed by the resend circuit (fresh |00> state, bit flip on particle A
exactly when Eve observed bitA = 1 and on particle B exactly when Eve
observed bitB = 1, the legitimate rotations by the pair's own angles, then
measurement) run for all the requested shots, and the pair's correlation is
computed from the counts of that second, resend-circuit run. -/
theorem intercept_branch_structure (shots : ℕ) (prob : ℚ) (env : EveEnv)
    (hs : shots ≠ 0) (hb0 : env.bern 0 < prob) :
    (runEveAttack shots prob env).2.subs.take 2 =
      [(eveMeasCircuit (eveAngleOpts.get (env.eveAngleIdx 0)), 1),
       (resendCircuit (env.sample1 0).1 (env.sample1 0).2 0 22.5, shots)] ∧
    eveMeasCircuit (eveAngleOpts.get (env.eveAngleIdx 0)) =
      [Gate.h 0, Gate.cx 0 1,
       Gate.ry (eveAngleOpts.get (env.eveAngleIdx 0)) 0,
       Gate.ry (eveAngleOpts.get (env.eveAngleIdx 0)) 1,
       Gate.measure 0 0, Gate.measure 1 1] ∧
    resendCircuit (env.sample1 0).1 (env.sample1 0).2 0 22.5 =
      ((if (env.sample1 0).1 then [Gate.x 0] else []) ++
       (if (env.sample1 0).2 then [Gate.x 1] else []) ++
       [Gate.ry 0 0, Gate.ry 22.5 1, Gate.measure 0 0, Gate.measure 1 1]) ∧
    (∃ r, (runEveAttack shots prob env).1 = .ok r ∧
      r.correlations.getD 0 0 = corrQ (env.counts 0) shots) := by
  have h0 : (eveStep shots prob env initEveState 0 22.5).1 =
      { bCur := 1, iCur := 1, corrs := [corrQ (env.counts 0) shots],
        subs := [(eveMeasCircuit (eveAngleOpts.get (env.eveAngleIdx 0)), 1),
                 (resendCircuit (env.sample1 0).1 (env.sample1 0).2 0 22.5,
                  shots)],
        mains := [resendCircuit (env.sample1 0).1 (env.sample1 0).2 0 22.5] }
      := by
    rw [eveStep_intercept shots prob env initEveState 0 22.5 hs hb0]
    rfl
  have hloop : (eveLoop shots prob env chshPairs initEveState).1 =
      (eveLoop shots prob env [(0, 67.5), (45, 22.5), (45, 67.5)]
        (eveStep shots prob env initEveState 0 22.5).1).1 := by
    show (eveLoop shots prob env
      ((0, 22.5) :: [(0, 67.5), (45, 22.5), (45, 67.5)]) initEveState).1 = _
    rw [eveLoop_cons _ _ _ _ _ _ hs]
  obtain ⟨t, ht⟩ := eveLoop_subs_prefix shots prob env
    [(0, 67.5), (45, 22.5), (45, 67.5)]
    (eveStep shots prob env initEveState 0 22.5).1 hs
  obtain ⟨t2, ht2⟩ := eveLoop_corrs_prefix shots prob env
    [(0, 67.5), (45, 22.5), (45, 67.5)]
    (eveStep shots prob env initEveState 0 22.5).1 hs
  rw [h0] at ht ht2
  refine ⟨?_, rfl, rfl, ?_⟩
  · rw [runEveAttack_eq shots prob env hs]
    show (eveLoop shots prob env chshPairs initEveState).1.subs.take 2 = _
    rw [hloop, h0, ht]
    rfl
  · rw [runEveAttack_eq shots prob env hs]
    refine ⟨_, rfl, ?_⟩
    show (eveLoop shots prob env chshPairs initEveState).1.corrs.getD 0 0 = _
    rw [hloop, h0, ht2]
    rfl

/-- Witness for C5 at shots = 4, interception probability 1, with the
eveEnvHalf environment. -/
theorem intercept_branch_structure_witness :
    (4 : ℕ) ≠ 0 ∧ eveEnvHalf.bern 0 < 1 ∧
    ((runEveAttack 4 1 eveEnvHalf).2.subs.take 2 =
      [(eveMeasCircuit (eveAngleOpts.get (eveEnvHalf.eveAngleIdx 0)), 1),
       (resendCircuit (eveEnvHalf.sample1 0).1 (eveEnvHalf.sample1 0).2
         0 22.5, 4)] ∧
    eveMeasCircuit (eveAngleOpts.get (eveEnvHalf.eveAngleIdx 0)) =
      [Gate.h 0, Gate.cx 0 1,
       Gate.ry (eveAngleOpts.get (eveEnvHalf.eveAngleIdx 0)) 0,
       Gate.ry (eveAngleOpts.get (eveEnvHalf.eveAngleIdx 0)) 1,
       Gate.measure 0 0, Gate.measure 1 1] ∧
    resendCircuit (eveEnvHalf.sample1 0).1 (eveEnvHalf.sample1 0).2 0 22.5 =
      ((if (eveEnvHalf.sample1 0).1 then [Gate.x 0] else []) ++
       (if (eveEnvHalf.sample1 0).2 then [Gate.x 1] else []) ++
       [Gate.ry 0 0, Gate.ry 22.5 1, Gate.measure 0 0, Gate.measure 1 1]) ∧
    (∃ r, (runEveAttack 4 1 eveEnvHalf).1 = .ok r ∧
      r.correlations.getD 0 0 = corrQ (eveEnvHalf.counts 0) 4)) :=
  ⟨by decide, by norm_num [eveEnvHalf],
   intercept_branch_structure 4 1 eveEnvHalf (by decide)
     (by norm_num [eveEnvHalf])⟩

lemma eveMainShapes_length (prob : ℚ) (env : EveEnv) (ps : List (ℚ × ℚ))
    (b i : ℕ) : (eveMainShapes prob env ps b i).length = ps.length := by
  induction ps generalizing b i with
  | nil => rfl
  | cons p rest ih =>
    rw [eveMainShapes]
    split_ifs <;> simp [ih]

lemma eveLoop_mains_eq (shots : ℕ) (prob : ℚ) (env : EveEnv)
    (ps : List (ℚ × ℚ)) (st : EveState) (hs : shots ≠ 0) :
    (eveLoop shots prob env ps st).1.mains =
      st.mains ++ eveMainShapes prob env ps st.bCur st.iCur := by
  induction ps generalizing st with
  | nil => simp [eveLoop, eveMainShapes]
  | cons p rest ih =>
    rw [eveLoop_cons _ _ _ _ _ _ hs, ih]
    by_cases hb : env.bern st.bCur < prob
    · rw [eveStep_intercept shots prob env st p.1 p.2 hs hb]
      simp [eveMainShapes, hb]
    · rw [eveStep_plain shots prob env st p.1 p.2 hs hb]
      simp [eveMainShapes, hb]

lemma eveStep_main_sub (shots : ℕ) (prob : ℚ) (env : EveEnv) (st : EveState)
    (θa θb : ℚ)
    (hinv : ∀ c ∈ st.mains, (c, shots) ∈ st.subs) :
    ∀ c ∈ (eveStep shots prob env st θa θb).1.mains,
      (c, shots) ∈ (eveStep shots prob env st θa θb).1.subs := by
  unfold eveStep
  split_ifs <;>
  · intro c hc
    simp only [List.mem_append, List.mem_singleton] at hc
    rcases hc with h | h
    · exact List.mem_append_left _ (hinv c h)
    · subst h
      refine List.mem_append_right _ ?_
      simp

lemma eveLoop_main_sub (shots : ℕ) (prob : ℚ) (env : EveEnv)
    (ps : List (ℚ × ℚ)) (st : EveState) (hs : shots ≠ 0)
    (hinv : ∀ c ∈ st.mains, (c, shots) ∈ st.subs) :
    ∀ c ∈ (eveLoop shots prob env ps st).1.mains,
      (c, shots) ∈ (eveLoop shots prob env ps st).1.subs := by
  induction ps generalizing st with
  | nil => simpa [eveLoop] using hinv
  | cons p rest ih =>
    rw [eveLoop_cons _ _ _ _ _ _ hs]
    exact ih _ (eveStep_main_sub shots prob env st p.1 p.2 hinv)

/-- C6 counterexample: with shots = 3 and certain interception, the whole
call consumes only four Eve basis draws and single-shot Eve measurements
(one per angle pair, not one per repetition), and the single resend circuit
built from pair 0's one Eve outcome is submitted once with all three
repetitions, so the drawn eve angle and Eve outcome are shared across every
repetition of the pair. -/
theorem eve_draws_shared_cex :
    (runEveAttack 3 1 eveEnvAll).2.iCur = 4 ∧
    ((resendCircuit false false 0 22.5, 3) ∈
      (runEveAttack 3 1 eveEnvAll).2.subs) ∧
    (runEveAttack 3 1 eveEnvAll).2.iCur ≠ 4 * 3 := by
  have hb : ∀ n, eveEnvAll.bern n < 1 := by
    intro n
    norm_num [eveEnvAll]
  have hst : (runEveAttack 3 1 eveEnvAll).2 =
      (eveLoop 3 1 eveEnvAll chshPairs initEveState).1 := by
    rw [runEveAttack_eq 3 1 eveEnvAll (by decide)]
  rw [hst, eveLoop_all_intercept 3 1 eveEnvAll (by decide) (hb 0) (hb 1)
    (hb 2) (hb 3)]
  refine ⟨rfl, ?_, by decide⟩
  simp [eveEnvAll]

/-- C6 amended: when every angle pair is intercepted, the attack draws
exactly one Eve basis (and performs exactly one single-shot Eve measurement)
per angle pair — iCur = 4 in total, independent of shots — and each pair's
single resulting resend circuit is submitted once with all `shots`
repetitions, so all repetitions of a pair share one drawn eve angle and one
Eve outcome. -/
theorem eve_draw_once_per_pair (shots : ℕ) (prob : ℚ) (env : EveEnv)
    (hs : shots ≠ 0) (hb0 : env.bern 0 < prob) (hb1 : env.bern 1 < prob)
    (hb2 : env.bern 2 < prob) (hb3 : env.bern 3 < prob) :
    (runEveAttack shots prob env).2.iCur = 4 ∧
    (runEveAttack shots prob env).2.subs =
      [(eveMeasCircuit (eveAngleOpts.get (env.eveAngleIdx 0)), 1),
       (resendCircuit (env.sample1 0).1 (env.sample1 0).2 0 22.5, shots),
       (eveMeasCircuit (eveAngleOpts.get (env.eveAngleIdx 1)), 1),
       (resendCircuit (env.sample1 1).1 (env.sample1 1).2 0 67.5, shots),
       (eveMeasCircuit (eveAngleOpts.get (env.eveAngleIdx 2)), 1),
       (resendCircuit (env.sample1 2).1 (env.sample1 2).2 45 22.5, shots),
       (eveMeasCircuit (eveAngleOpts.get (env.eveAngleIdx 3)), 1),
       (resendCircuit (env.sample1 3).1 (env.sample1 3).2 45 67.5, shots)]
    := by
  have hst : (runEveAttack shots prob env).2 =
      (eveLoop shots prob env chshPairs initEveState).1 := by
    rw [runEveAttack_eq shots prob env hs]
  rw [hst, eveLoop_all_intercept shots prob env hs hb0 hb1 hb2 hb3]
  exact ⟨rfl, rfl⟩

/-- Witness for the amended C6 at shots = 5 and probability 1. -/
theorem eve_draw_once_per_pair_witness :
    (5 : ℕ) ≠ 0 ∧ eveEnvHalf.bern 0 < 1 ∧
    ((runEveAttack 5 1 eveEnvHalf).2.iCur = 4 ∧
    (runEveAttack 5 1 eveEnvHalf).2.subs =
      [(eveMeasCircuit (eveAngleOpts.get (eveEnvHalf.eveAngleIdx 0)), 1),
       (resendCircuit (eveEnvHalf.sample1 0).1 (eveEnvHalf.sample1 0).2
         0 22.5, 5),
       (eveMeasCircuit (eveAngleOpts.get (eveEnvHalf.eveAngleIdx 1)), 1),
       (resendCircuit (eveEnvHalf.sample1 1).1 (eveEnvHalf.sample1 1).2
         0 67.5, 5),
       (eveMeasCircuit (eveAngleOpts.get (eveEnvHalf.eveAngleIdx 2)), 1),
       (resendCircuit (eveEnvHalf.sample1 2).1 (eveEnvHalf.sample1 2).2
         45 22.5, 5),
       (eveMeasCircuit (eveAngleOpts.get (eveEnvHalf.eveAngleIdx 3)), 1),
       (resendCircuit (eveEnvHalf.sample1 3).1 (eveEnvHalf.sample1 3).2
         45 67.5, 5)]) :=
  ⟨by decide, by norm_num [eveEnvHalf],
   eve_draw_once_per_pair 5 1 eveEnvHalf (by decide)
     (by norm_num [eveEnvHalf]) (by norm_num [eveEnvHalf])
     (by norm_num [eveEnvHalf]) (by norm_num [eveEnvHalf])⟩

/-- C8: the attacked-or-not choice is made by exactly one fresh Bernoulli
draw per angle pair — the Bernoulli cursor ends at 4 for every shots value,
so there are four draws per call, not one per shot — and the per-pair
shots-run circuits are exactly eveMainShapes (whose Bernoulli cursor
advances once per pair and which does not depend on shots): one circuit per
pair, submitted to the simulator once with all `shots` repetitions, so all
repetitions of a pair share that pair's attacked or clean circuit shape. -/
theorem bernoulli_once_per_pair (shots : ℕ) (prob : ℚ) (env : EveEnv)
    (hs : shots ≠ 0) :
    (runEveAttack shots prob env).2.bCur = 4 ∧
    (runEveAttack shots prob env).2.mains =
      eveMainShapes prob env chshPairs 0 0 ∧
    (runEveAttack shots prob env).2.mains.length = 4 ∧
    (∀ c ∈ (runEveAttack shots prob env).2.mains,
      (c, shots) ∈ (runEveAttack shots prob env).2.subs) := by
  have hst : (runEveAttack shots prob env).2 =
      (eveLoop shots prob env chshPairs initEveState).1 := by
    rw [runEveAttack_eq shots prob env hs]
  rw [hst]
  refine ⟨?_, ?_, ?_, ?_⟩
  · rw [eveLoop_bCur shots prob env chshPairs initEveState hs]
    rfl
  · rw [eveLoop_mains_eq shots prob env chshPairs initEveState hs]
    rfl
  · rw [eveLoop_mains_eq shots prob env chshPairs initEveState hs]
    show (eveMainShapes prob env chshPairs 0 0).length = 4
    rw [eveMainShapes_length]
    rfl
  · exact eveLoop_main_sub shots prob env chshPairs initEveState hs
      (by intro c hc; cases hc)

/-- Witness for C8 at shots = 5, probability 1/2, with alternating Bernoulli
draws. -/
theorem bernoulli_once_per_pair_witness :
    (5 : ℕ) ≠ 0 ∧
    ((runEveAttack 5 (1/2) eveEnvMix).2.bCur = 4 ∧
    (runEveAttack 5 (1/2) eveEnvMix).2.mains =
      eveMainShapes (1/2) eveEnvMix chshPairs 0 0 ∧
    (runEveAttack 5 (1/2) eveEnvMix).2.mains.length = 4 ∧
    (∀ c ∈ (runEveAttack 5 (1/2) eveEnvMix).2.mains,
      (c, 5) ∈ (runEveAttack 5 (1/2) eveEnvMix).2.subs)) :=
  ⟨by decide, bernoulli_once_per_pair 5 (1/2) eveEnvMix (by decide)⟩

lemma pyRound4_eval_down (x : ℚ) (k : ℤ) (h1 : ⌊x * 10000⌋ = k)
    (h2 : x * 10000 - (k : ℚ) < 1/2) : pyRound4 x = (k : ℚ) / 10000 := by
  unfold pyRound4 roundHalfEven
  rw [h1, if_pos h2]

lemma pyRound4_eval_up (x : ℚ) (k : ℤ) (h1 : ⌊x * 10000⌋ = k)
    (h2 : 1/2 < x * 10000 - (k : ℚ)) : pyRound4 x = ((k + 1 : ℤ) : ℚ) / 10000 := by
  unfold pyRound4 roundHalfEven
  rw [h1, if_neg (by linarith), if_pos h2]

lemma corrQ_envThirds (i : ℕ) : corrQ (envThirds i) 3 = 1/3 := by
  norm_num [corrQ, envThirds, nSame, nDiff]

/-- C7 counterexample: with the same per-pair counts (two of three shots on
key 00, one on key 01, correlation 1/3 for every pair), CHSH verification
reports s_value 0.6666 (it rounds each correlation to 0.3333 before
combining) while the eavesdropper attack at intercept probability 0 reports
s_value 0.6667 (it combines the exact 1/3 correlations and rounds only the
final sum), so the two endpoints do not return the same S-value. -/
theorem attack_prob_zero_cex :
    eveEnvPlain.counts = envThirds ∧
    (∃ r1, (runChsh 3 envThirds).1 = .ok r1 ∧ r1.s_value = 6666/10000) ∧
    (∃ r2, (runEveAttack 3 0 eveEnvPlain).1 = .ok r2 ∧
      r2.s_value = 6667/10000) ∧
    (6666/10000 : ℚ) ≠ 6667/10000 := by
  have hE : ∀ i, chshE envThirds 3 i = 3333/10000 := by
    intro i
    rw [chshE, corrQ_envThirds i,
      pyRound4_eval_down (1/3) 3333 (by norm_num) (by norm_num)]
    norm_num
  have hS : chshSabs envThirds 3 = 6666/10000 := by
    rw [chshSabs, hE 0, hE 1, hE 2, hE 3,
      show (3333 : ℚ)/10000 - 3333/10000 + 3333/10000 + 3333/10000 =
        6666/10000 by norm_num,
      abs_of_nonneg (by norm_num : (0 : ℚ) ≤ 6666/10000)]
  refine ⟨rfl, ?_, ?_, by norm_num⟩
  · rw [runChsh_ok 3 envThirds (by decide)]
    refine ⟨_, rfl, ?_⟩
    show pyRound4 (chshSabs envThirds 3) = 6666/10000
    rw [hS, show (6666 : ℚ)/10000 = ((6666 : ℤ) : ℚ)/10000 by norm_num,
      pyRound4_int_div]
  · rw [runEveAttack_eq 3 0 eveEnvPlain (by decide),
      eveLoop_all_plain 3 0 eveEnvPlain (by decide)
        (by norm_num [eveEnvPlain]) (by norm_num [eveEnvPlain])
        (by norm_num [eveEnvPlain]) (by norm_num [eveEnvPlain])]
    refine ⟨_, rfl, ?_⟩
    have hc : ∀ i, corrQ (eveEnvPlain.counts i) 3 = 1/3 := fun i =>
      corrQ_envThirds i
    show pyRound4 |corrQ (eveEnvPlain.counts 0) 3 -
      corrQ (eveEnvPlain.counts 1) 3 + corrQ (eveEnvPlain.counts 2) 3 +
      corrQ (eveEnvPlain.counts 3) 3| = _
    rw [hc 0, hc 1, hc 2, hc 3,
      show (1 : ℚ)/3 - 1/3 + 1/3 + 1/3 = 2/3 by norm_num,
      abs_of_nonneg (by norm_num : (0 : ℚ) ≤ 2/3),
      pyRound4_eval_up (2/3) 6666 (by norm_num) (by norm_num)]
    norm_num

/-- C7 amended: at intercept probability 0 the attack submits exactly the
circuits CHSH verification submits (same four angle pairs, same Bell-pair
circuit, same shots each), and its correlations are the same unrounded
per-pair correlations; but CHSH verification rounds each correlation to 4
decimal places before combining while the attack does not, so the reported
S-values and flags are only guaranteed to agree when that rounding leaves
every correlation unchanged. -/
theorem attack_prob_zero_refinement (shots : ℕ) (env : EveEnv)
    (hs : shots ≠ 0)
    (hb0 : ¬ env.bern 0 < 0) (hb1 : ¬ env.bern 1 < 0)
    (hb2 : ¬ env.bern 2 < 0) (hb3 : ¬ env.bern 3 < 0) :
    (runEveAttack shots 0 env).2.subs = (runChsh shots env.counts).2.subs ∧
    (∃ r1 r2, (runChsh shots env.counts).1 = .ok r1 ∧
      (runEveAttack shots 0 env).1 = .ok r2 ∧
      r2.correlations =
        [corrQ (env.counts 0) shots, corrQ (env.counts 1) shots,
         corrQ (env.counts 2) shots, corrQ (env.counts 3) shots] ∧
      r1.correlations = r2.correlations.map pyRound4 ∧
      ((∀ i, i < 4 →
          pyRound4 (corrQ (env.counts i) shots) = corrQ (env.counts i) shots)
        → r1.s_value = r2.s_value ∧ r1.violation = r2.is_secure)) := by
  have hplain := eveLoop_all_plain shots 0 env hs hb0 hb1 hb2 hb3
  constructor
  · rw [runEveAttack_eq shots 0 env hs]
    show (eveLoop shots 0 env chshPairs initEveState).1.subs = _
    rw [hplain, runChsh_ok shots env.counts hs]
  · rw [runChsh_ok shots env.counts hs, runEveAttack_eq shots 0 env hs,
      hplain]
    refine ⟨_, _, rfl, rfl, rfl, ?_, ?_⟩
    · show chshCorrs env.counts shots = _
      simp [chshCorrs, chshE]
    · intro hid
      have hE0 : chshE env.counts shots 0 = corrQ (env.counts 0) shots := by
        rw [chshE]
        exact hid 0 (by norm_num)
      have hE1 : chshE env.counts shots 1 = corrQ (env.counts 1) shots := by
        rw [chshE]
        exact hid 1 (by norm_num)
      have hE2 : chshE env.counts shots 2 = corrQ (env.counts 2) shots := by
        rw [chshE]
        exact hid 2 (by norm_num)
      have hE3 : chshE env.counts shots 3 = corrQ (env.counts 3) shots := by
        rw [chshE]
        exact hid 3 (by norm_num)
      constructor
      · show pyRound4 (chshSabs env.counts shots) = pyRound4 _
        rw [chshSabs, hE0, hE1, hE2, hE3]
        rfl
      · show decide (chshSabs env.counts shots > 2) = decide _
        rw [chshSabs, hE0, hE1, hE2, hE3]
        rfl

/-- Witness for the amended C7 at shots = 3 with the eveEnvPlain
environment. -/
theorem attack_prob_zero_refinement_witness :
    (3 : ℕ) ≠ 0 ∧ (¬ eveEnvPlain.bern 0 < 0) ∧
    ((runEveAttack 3 0 eveEnvPlain).2.subs =
      (runChsh 3 eveEnvPlain.counts).2.subs ∧
    (∃ r1 r2, (runChsh 3 eveEnvPlain.counts).1 = .ok r1 ∧
      (runEveAttack 3 0 eveEnvPlain).1 = .ok r2 ∧
      r2.correlations =
        [corrQ (eveEnvPlain.counts 0) 3, corrQ (eveEnvPlain.counts 1) 3,
         corrQ (eveEnvPlain.counts 2) 3, corrQ (eveEnvPlain.counts 3) 3] ∧
      r1.correlations = r2.correlations.map pyRound4 ∧
      ((∀ i, i < 4 →
          pyRound4 (corrQ (eveEnvPlain.counts i) 3) =
            corrQ (eveEnvPlain.counts i) 3)
        → r1.s_value = r2.s_value ∧ r1.violation = r2.is_secure))) :=
  ⟨by decide, by norm_num [eveEnvPlain],
   attack_prob_zero_refinement 3 eveEnvPlain (by decide)
     (by norm_num [eveEnvPlain]) (by norm_num [eveEnvPlain])
     (by norm_num [eveEnvPlain]) (by norm_num [eveEnvPlain])⟩

lemma keygenLoop_eq (env : KeygenEnv) (fuel : ℕ) :
    ∀ (i : ℕ) (acc : KeygenResult) (subs : List (Circuit × ℕ)),
    keygenLoop env fuel i acc subs =
      ({ alice_bases := acc.alice_bases ++
           (List.range' i fuel).map (fun n => basisOptsA.get (env.basisA n)),
         bob_bases := acc.bob_bases ++
           (List.range' i fuel).map (fun n => basisOptsB.get (env.basisB n)),
         raw_bits_a := acc.raw_bits_a ++
           (List.range' i fuel).map
             (fun n => if (env.sample1 n).1 then 1 else 0),
         raw_bits_b := acc.raw_bits_b ++
           (List.range' i fuel).map
             (fun n => if (env.sample1 n).2 then 1 else 0) },
       subs ++ (List.range' i fuel).map (fun n =>
         (chshCircuit (basisOptsA.get (env.basisA n) : ℚ)
           (basisOptsB.get (env.basisB n) : ℚ), 1))) := by
  induction fuel with
  | zero => intro i acc subs; simp [keygenLoop, List.range']
  | succ fuel ih =>
    intro i acc subs
    rw [keygenLoop, ih, List.range'_succ]
    simp [List.append_assoc]

/-- C9: key generation runs exactly count independent single-shot sifting
circuits; the four returned sequences have length exactly count; the i-th
entries are determined by the i-th independent basis index draws into the
candidate sets [0, 45, 90] and [45, 90, 135] and by the i-th single-shot
measurement outcome; every basis lies in its candidate set and every bit is
0 or 1; the raw sequences are returned in full with no sifting applied. -/
theorem keygen_structure (count : ℕ) (env : KeygenEnv) :
    (runKeygen count env).1.alice_bases =
      (List.range count).map (fun n => basisOptsA.get (env.basisA n)) ∧
    (runKeygen count env).1.bob_bases =
      (List.range count).map (fun n => basisOptsB.get (env.basisB n)) ∧
    (runKeygen count env).1.raw_bits_a =
      (List.range count).map (fun n => if (env.sample1 n).1 then 1 else 0) ∧
    (runKeygen count env).1.raw_bits_b =
      (List.range count).map (fun n => if (env.sample1 n).2 then 1 else 0) ∧
    (runKeygen count env).1.alice_bases.length = count ∧
    (runKeygen count env).1.bob_bases.length = count ∧
    (runKeygen count env).1.raw_bits_a.length = count ∧
    (runKeygen count env).1.raw_bits_b.length = count ∧
    (runKeygen count env).2 =
      (List.range count).map (fun n =>
        (chshCircuit (basisOptsA.get (env.basisA n) : ℚ)
          (basisOptsB.get (env.basisB n) : ℚ), 1)) ∧
    (runKeygen count env).2.length = count ∧
    ((runKeygen count env).1.alice_bases.all
      (fun b => decide (b ∈ basisOptsA))) = true ∧
    ((runKeygen count env).1.bob_bases.all
      (fun b => decide (b ∈ basisOptsB))) = true ∧
    ((runKeygen count env).1.raw_bits_a.all (fun b => b ≤ 1)) = true ∧
    ((runKeygen count env).1.raw_bits_b.all (fun b => b ≤ 1)) = true := by
  have hrun : runKeygen count env =
      ({ alice_bases :=
           (List.range count).map (fun n => basisOptsA.get (env.basisA n)),
         bob_bases :=
           (List.range count).map (fun n => basisOptsB.get (env.basisB n)),
         raw_bits_a := (List.range count).map
           (fun n => if (env.sample1 n).1 then 1 else 0),
         raw_bits_b := (List.range count).map
           (fun n => if (env.sample1 n).2 then 1 else 0) },
       (List.range count).map (fun n =>
         (chshCircuit (basisOptsA.get (env.basisA n) : ℚ)
           (basisOptsB.get (env.basisB n) : ℚ), 1))) := by
    unfold runKeygen
    rw [keygenLoop_eq, List.range_eq_range']
    rfl
  rw [hrun]
  refine ⟨rfl, rfl, rfl, rfl, by simp, by simp, by simp, by simp, rfl,
    by simp, ?_, ?_, ?_, ?_⟩
  · simp only [List.all_eq_true, List.mem_map]
    rintro b ⟨n, _, rfl⟩
    simp [List.get_mem]
  · simp only [List.all_eq_true, List.mem_map]
    rintro b ⟨n, _, rfl⟩
    simp [List.get_mem]
  · simp only [List.all_eq_true, List.mem_map]
    rintro b ⟨n, _, rfl⟩
    split_ifs <;> simp
  · simp only [List.all_eq_true, List.mem_map]
    rintro b ⟨n, _, rfl⟩
    split_ifs <;> simp

/-- C10: in both CHSH verification and the eavesdropper attack, the boolean
flag compares the unrounded S-statistic to 2 while the s_value field is that
statistic rounded to 4 decimal places; with 100000 shots and correlations
[1, -1, 0.00002, 0.00002] (unrounded S = 2.00004) the attack returns
s_value = 2.0 together with is_secure = true. -/
theorem flags_use_unrounded_s :
    (∀ (shots : ℕ) (env : ℕ → Counts), shots ≠ 0 →
      ∃ r, (runChsh shots env).1 = .ok r ∧
        r.s_value = pyRound4 (chshSabs env shots) ∧
        r.violation = decide (chshSabs env shots > 2)) ∧
    (∀ (shots : ℕ) (prob : ℚ) (env : EveEnv), shots ≠ 0 →
      ∃ r st, runEveAttack shots prob env = (.ok r, st) ∧
        r.s_value = pyRound4 |st.corrs.getD 0 0 - st.corrs.getD 1 0 +
          st.corrs.getD 2 0 + st.corrs.getD 3 0| ∧
        r.is_secure = decide (|st.corrs.getD 0 0 - st.corrs.getD 1 0 +
          st.corrs.getD 2 0 + st.corrs.getD 3 0| > 2)) ∧
    (∃ r, (runEveAttack 100000 (1/2) eveEnvTie).1 = .ok r ∧
      r.s_value = 2 ∧ r.is_secure = true) := by
  refine ⟨?_, ?_, ?_⟩
  · intro shots env hs
    rw [runChsh_ok shots env hs]
    exact ⟨_, rfl, rfl, rfl⟩
  · intro shots prob env hs
    rw [runEveAttack_eq shots prob env hs]
    exact ⟨_, _, rfl, rfl, rfl⟩
  · rw [runEveAttack_eq 100000 (1/2) eveEnvTie (by decide),
      eveLoop_all_plain 100000 (1/2) eveEnvTie (by decide)
        (by norm_num [eveEnvTie]) (by norm_num [eveEnvTie])
        (by norm_num [eveEnvTie]) (by norm_num [eveEnvTie])]
    have hc0 : corrQ (eveEnvTie.counts 0) 100000 = 1 := by
      norm_num [corrQ, eveEnvTie, envTie, nSame, nDiff]
    have hc1 : corrQ (eveEnvTie.counts 1) 100000 = -1 := by
      norm_num [corrQ, eveEnvTie, envTie, nSame, nDiff]
    have hc2 : corrQ (eveEnvTie.counts 2) 100000 = 1/50000 := by
      norm_num [corrQ, eveEnvTie, envTie, nSame, nDiff]
    have hc3 : corrQ (eveEnvTie.counts 3) 100000 = 1/50000 := by
      norm_num [corrQ, eveEnvTie, envTie, nSame, nDiff]
    refine ⟨_, rfl, ?_, ?_⟩
    · show pyRound4 |corrQ (eveEnvTie.counts 0) 100000 -
        corrQ (eveEnvTie.counts 1) 100000 + corrQ (eveEnvTie.counts 2) 100000 +
        corrQ (eveEnvTie.counts 3) 100000| = 2
      rw [hc0, hc1, hc2, hc3,
        show (1 : ℚ) - -1 + 1/50000 + 1/50000 = 50001/25000 by norm_num,
        abs_of_nonneg (by norm_num : (0 : ℚ) ≤ 50001/25000),
        pyRound4_eval_down (50001/25000) 20000 (by norm_num) (by norm_num)]
      norm_num
    · show decide (|corrQ (eveEnvTie.counts 0) 100000 -
        corrQ (eveEnvTie.counts 1) 100000 + corrQ (eveEnvTie.counts 2) 100000 +
        corrQ (eveEnvTie.counts 3) 100000| > 2) = true
      rw [decide_eq_true_eq, hc0, hc1, hc2, hc3,
        show (1 : ℚ) - -1 + 1/50000 + 1/50000 = 50001/25000 by norm_num,
        abs_of_nonneg (by norm_num : (0 : ℚ) ≤ 50001/25000)]
      norm_num

/-- Witness for C10 at shots = 1 on the chsh part. -/
theorem flags_use_unrounded_s_witness :
    (1 : ℕ) ≠ 0 ∧
    (∃ r, (runChsh 1 envConst4).1 = .ok r ∧
      r.s_value = pyRound4 (chshSabs envConst4 1) ∧
      r.violation = decide (chshSabs envConst4 1 > 2)) :=
  ⟨by decide, flags_use_unrounded_s.1 1 envConst4 (by decide)⟩

end E91
